import Mathlib

/-!
Verification development for the placement candidate-set algebra
(`placement/objects/rp_candidates.py`) and the consumer/ownership
lifecycle (`placement/objects/consumer.py`).

UUIDs and resource-class names are modelled as `String`.  The candidate
list is a finite set of triples, exactly as in the Python source (which
stores a `set` of `(uuid, root_uuid, rc_name)` named tuples).
-/

/-- Mirrors `RPCandidate = collections.namedtuple("RPCandidates", "uuid root_uuid rc_name")`. -/
structure RPCandidate where
  uuid : String
  root_uuid : String
  rc_name : String
deriving DecidableEq, Repr

/-- Mirrors `RPCandidateList`: wraps the set `self.rp_candidates`. -/
structure RPCandidateList where
  rp_candidates : Finset RPCandidate
deriving DecidableEq

namespace RPCandidateList

/-- Python `__len__`. -/
def length (self : RPCandidateList) : Nat := self.rp_candidates.card

/-- Python `__bool__`: truthiness, `bool(len(self))`. -/
def toBool (self : RPCandidateList) : Prop := self.length ≠ 0

instance : DecidablePred toBool := fun self => by
  unfold toBool; infer_instance

/-- Property `rps`: `set(p.uuid for p in self.rp_candidates)`. -/
def rps (self : RPCandidateList) : Finset String :=
  self.rp_candidates.image (fun p => p.uuid)

/-- Property `trees`: `set(p.root_uuid for p in self.rp_candidates)`. -/
def trees (self : RPCandidateList) : Finset String :=
  self.rp_candidates.image (fun p => p.root_uuid)

/-- Property `all_rps`: `self.rps | self.trees`. -/
def all_rps (self : RPCandidateList) : Finset String :=
  self.rps ∪ self.trees

/-- Mirrors `add_rps(rps, rc_name)`: union in the triples tagged with `rc_name`. -/
def add_rps (self : RPCandidateList) (rps : List (String × String))
    (rc_name : String) : RPCandidateList :=
  ⟨self.rp_candidates ∪
    (rps.map (fun rp => RPCandidate.mk rp.1 rp.2 rc_name)).toFinset⟩

/-- Mirrors `filter_by_tree(tree_root_ids)`: keep `p` with `p.root_uuid in tree_root_ids`. -/
def filter_by_tree (self : RPCandidateList) (tree_root_ids : Finset String) :
    RPCandidateList :=
  ⟨self.rp_candidates.filter (fun p => p.root_uuid ∈ tree_root_ids)⟩

/-- Mirrors `filter_by_rp(rptuples)`: keep `p` with `(p.uuid, p.root_uuid) in rptuples`. -/
def filter_by_rp (self : RPCandidateList) (rptuples : Finset (String × String)) :
    RPCandidateList :=
  ⟨self.rp_candidates.filter (fun p => (p.uuid, p.root_uuid) ∈ rptuples)⟩

/-- Mirrors `filter_by_rp_or_tree(rp_uuids)`: keep `p` when
`set([p.uuid, p.root_uuid]) & rp_uuids` is non-empty. -/
def filter_by_rp_or_tree (self : RPCandidateList) (rp_uuids : Finset String) :
    RPCandidateList :=
  ⟨self.rp_candidates.filter
    (fun p => ({p.uuid, p.root_uuid} : Finset String) ∩ rp_uuids ≠ ∅)⟩

/-- Mirrors `filter_by_rp_nor_tree(rp_uuids)`: drop `p` when
`set([p.uuid, p.root_uuid]) & rp_uuids` is non-empty. -/
def filter_by_rp_nor_tree (self : RPCandidateList) (rp_uuids : Finset String) :
    RPCandidateList :=
  ⟨self.rp_candidates.filter
    (fun p => ¬ ({p.uuid, p.root_uuid} : Finset String) ∩ rp_uuids ≠ ∅)⟩

/-- Mirrors `merge_common_trees(other)`:
`if not self: self.rp_candidates = other.rp_candidates`
`elif not other: pass`
`else: trees_in_both = self.trees & other.trees;`
`self.rp_candidates |= other.rp_candidates; self.filter_by_tree(trees_in_both)`. -/
def merge_common_trees (self other : RPCandidateList) : RPCandidateList :=
  if ¬ self.toBool then
    ⟨other.rp_candidates⟩
  else if ¬ other.toBool then
    self
  else
    let trees_in_both := self.trees ∩ other.trees
    let unioned : RPCandidateList := ⟨self.rp_candidates ∪ other.rp_candidates⟩
    unioned.filter_by_tree trees_in_both

end RPCandidateList

/-- Operations the resolution orchestrator may apply to an `RPCandidateList`
(§4.2): `add_rps`, the four filters, and `merge_common_trees`. -/
inductive RPOp where
  | addRps (rps : List (String × String)) (rc_name : String)
  | filterByTree (tree_root_ids : Finset String)
  | filterByRp (rptuples : Finset (String × String))
  | filterByRpOrTree (rp_uuids : Finset String)
  | filterByRpNorTree (rp_uuids : Finset String)
  | mergeCommonTrees (other : RPCandidateList)

/-- Apply one mutation to the candidate list. -/
def RPOp.apply (self : RPCandidateList) : RPOp → RPCandidateList
  | .addRps rps rc_name => self.add_rps rps rc_name
  | .filterByTree t => self.filter_by_tree t
  | .filterByRp r => self.filter_by_rp r
  | .filterByRpOrTree s => self.filter_by_rp_or_tree s
  | .filterByRpNorTree s => self.filter_by_rp_nor_tree s
  | .mergeCommonTrees other => self.merge_common_trees other

/-- Apply a sequence of mutations, left to right. -/
def RPOp.applySeq (self : RPCandidateList) (ops : List RPOp) : RPCandidateList :=
  ops.foldl RPOp.apply self

/-- Candidate lists of the worked scenario of spec §8: `A_scn` holds
`{(p1,p1,DISK), (p2,p1,VCPU), (p3,p3,DISK)}`. -/
def A_scn : RPCandidateList :=
  ⟨{⟨"p1", "p1", "DISK"⟩, ⟨"p2", "p1", "VCPU"⟩, ⟨"p3", "p3", "DISK"⟩}⟩

/-- Second candidate list of the worked scenario: `{(p1,p1,DISK), (p3,p3,VCPU)}`. -/
def B_scn : RPCandidateList :=
  ⟨{⟨"p1", "p1", "DISK"⟩, ⟨"p3", "p3", "VCPU"⟩}⟩

/-!
Consumer lifecycle model (`placement/objects/consumer.py`).

The graph store is modelled explicitly.  Consumer nodes are rows
`(uuid, generation)` kept in a list (the store may in principle hold
several nodes, which is what Cypher `MERGE` on a full property set can
produce on a uuid collision — the spec declares that case undefined).
`OWNS` edges are `(user_uuid, consumer_uuid)` pairs; `USES` edges are
`(consumer_uuid, provider_uuid)` pairs.
-/

/-- Errors raised by the consumer lifecycle operations
(`placement.exception` plus a store-level failure, spec §7). -/
inductive PlacementError where
  | ConcurrentUpdateDetected
  | ConsumerNotFound
  | storeError
  | typeError
deriving DecidableEq, Repr

/-- Consumer nodes of the store: rows of `(uuid, generation)`. -/
abbrev ConsumerDB := List (String × Nat)

/-- Generation of the first consumer node matching `uuid`, when present. -/
def lookupGen (db : ConsumerDB) (uuid : String) : Option Nat :=
  (db.find? (fun e => e.1 == uuid)).map Prod.snd

/-- Store invariant: at most one consumer node per uuid (spec §4.1 makes
uuid uniqueness a caller obligation). -/
def ConsumerDB.WellFormed (db : ConsumerDB) : Prop :=
  (db.map Prod.fst).Nodup

instance : DecidablePred ConsumerDB.WellFormed := fun db => by
  unfold ConsumerDB.WellFormed; infer_instance

/-- Mirrors the Python `Consumer` object: a uuid plus the in-memory
`generation` attribute, `none` when unspecified. -/
structure Consumer where
  uuid : String
  generation : Option Nat
deriving DecidableEq, Repr

namespace Consumer

/-- Mirrors `Consumer.create`: `gen = self.generation or 0` (Python `or`
maps both `None` and `0` to `0`), then `MERGE` of a consumer node with
that generation, then `self.generation = gen`.  `MERGE` matches on the
full property set: an identical row is a no-op, otherwise a row is
added. -/
def create (db : ConsumerDB) (c : Consumer) : ConsumerDB × Consumer :=
  let gen := c.generation.getD 0
  let db' := if (c.uuid, gen) ∈ db then db else db ++ [(c.uuid, gen)]
  (db', { c with generation := some gen })

/-- Mirrors `Consumer.increment_generation`: `MATCH` the consumer node by
uuid and the caller's last-known generation, `SET` its generation to the
successor and return it; when the `MATCH` produces no row, raise
`ConcurrentUpdateDetected`. -/
def increment_generation (db : ConsumerDB) (uuid : String) (gen : Nat) :
    Except PlacementError (ConsumerDB × Nat) :=
  let new_generation := gen + 1
  if (uuid, gen) ∈ db then
    .ok (db.map (fun e => if e = (uuid, gen) then (uuid, new_generation) else e),
      new_generation)
  else
    .error .ConcurrentUpdateDetected

end Consumer

/-- Graph state for `Consumer.update`: existing `USER` nodes, consumer
nodes, and the user-`OWNS`-consumer edges `(user_uuid, consumer_uuid)`. -/
structure OwnState where
  users : Finset String
  gens : ConsumerDB
  owns : List (String × String)
deriving DecidableEq

/-- The `OWNS` edges into a given consumer. -/
def OwnState.ownersOf (st : OwnState) (consumer : String) :
    List (String × String) :=
  st.owns.filter (fun e => e.2 == consumer)

/-- Mirrors `Consumer.update`.  With a user given: `MATCH
p=(u:USER)-[:OWNS]-(cs:CONSUMER {uuid, generation})` — one row per `OWNS`
edge into a consumer node matching both uuid and generation — `DELETE` the
matched edge on every row, then `OPTIONAL MATCH` the new user node and
`CREATE (u)-[:OWNS]->(cs)` once per row (Cypher `CREATE` on a null node is
a store-level error); with no row matched, nothing happens.  With no user
given, the else-branch query template holds two `%s` placeholders but is
formatted with the three-element tuple
`(self.uuid, self.generation, user_uuid)`, so Python raises `TypeError`
from the format-arity mismatch before any query runs. -/
def Consumer.update (st : OwnState) (uuid : String) (gen : Nat)
    (user : Option String) : Except PlacementError OwnState :=
  match user with
  | some user_uuid =>
      let rows := st.owns.filter (fun e => e.2 == uuid)
      if rows ≠ [] ∧ (uuid, gen) ∈ st.gens then
        let deleted : OwnState :=
          { st with owns := st.owns.filter (fun e => !(e.2 == uuid)) }
        if user_uuid ∈ st.users then
          .ok { deleted with
                owns := deleted.owns ++ rows.map (fun _ => (user_uuid, uuid)) }
        else
          .error .storeError
      else
        .ok st
  | none =>
      .error .typeError

/-- Allocation-side state for `delete_consumers_if_no_allocations`:
consumer node uuids and `USES` edges `(consumer_uuid, provider_uuid)`. -/
structure AllocState where
  consumers : Finset String
  uses : List (String × String)
deriving DecidableEq

/-- Mirrors `delete_consumers_if_no_allocations(ctx, consumer_uuids)`: the
body executes a bare `return` before its query runs, so the state comes
back unchanged; the `DETACH DELETE` query text below the `return` is dead
code. -/
def delete_consumers_if_no_allocations (st : AllocState)
    (consumer_uuids : List String) : AllocState :=
  st

/-- The dead query sitting after the early `return`: it would
detach-delete every consumer with no `USES` edge (note it never mentions
`consumer_uuids`). -/
def dead_delete_query (st : AllocState) : AllocState :=
  { st with
      consumers :=
        st.consumers.filter (fun c => st.uses.filter (fun e => e.1 == c) ≠ []) }

namespace RPCandidateList

lemma not_toBool_iff (self : RPCandidateList) :
    ¬ self.toBool ↔ self.rp_candidates = ∅ := by
  simp [toBool, length, Finset.card_eq_zero]

lemma merge_common_trees_of_nonempty {A B : RPCandidateList}
    (hA : A.toBool) (hB : B.toBool) :
    (A.merge_common_trees B).rp_candidates =
      (A.rp_candidates ∪ B.rp_candidates).filter
        (fun p => p.root_uuid ∈ A.trees ∩ B.trees) := by
  rw [merge_common_trees, if_neg (not_not_intro hA), if_neg (not_not_intro hB)]
  rfl

end RPCandidateList

namespace ConsumerDB

lemma lookupGen_cons (e : String × Nat) (db : ConsumerDB) (u : String) :
    lookupGen (e :: db) u = if e.1 == u then some e.2 else lookupGen db u := by
  cases h : e.1 == u <;> simp [lookupGen, List.find?_cons, h]

lemma lookupGen_append_of_none {db : ConsumerDB} {u : String}
    (h : lookupGen db u = none) (g : Nat) :
    lookupGen (db ++ [(u, g)]) u = some g := by
  induction db with
  | nil => simp [lookupGen]
  | cons e rest ih =>
      rw [List.cons_append, lookupGen_cons]
      rw [lookupGen_cons] at h
      cases he : e.1 == u with
      | true => rw [he] at h; simp at h
      | false =>
          simp only [he, Bool.false_eq_true, if_false] at h ⊢
          exact ih h

lemma lookupGen_eq_some_of_mem {db : ConsumerDB} {u : String} {g : Nat}
    (hwf : db.WellFormed) (hmem : (u, g) ∈ db) :
    lookupGen db u = some g := by
  induction db with
  | nil => cases hmem
  | cons e rest ih =>
      rw [lookupGen_cons]
      rcases List.mem_cons.mp hmem with heq | hrest
      · rw [← heq]; simp
      · have hkey : e.1 ≠ u := by
          intro hk
          have : u ∈ rest.map Prod.fst :=
            List.mem_map.mpr ⟨(u, g), hrest, rfl⟩
          exact (List.nodup_cons.mp hwf).1 (hk ▸ this)
        rw [if_neg (by simp [hkey])]
        exact ih (List.nodup_cons.mp hwf).2 hrest

lemma mem_of_lookupGen_eq_some {db : ConsumerDB} {u : String} {g : Nat}
    (h : lookupGen db u = some g) : (u, g) ∈ db := by
  unfold lookupGen at h
  rcases hf : db.find? (fun e => e.1 == u) with _ | e
  · rw [hf] at h; simp at h
  · rw [hf] at h
    simp at h
    have hmem := List.mem_of_find?_eq_some hf
    have hp := List.find?_some hf
    have hu : e.1 = u := by simpa using hp
    have he : e = (u, g) := Prod.ext hu h
    exact he ▸ hmem

lemma lookupGen_map_set {db : ConsumerDB} {u : String} {g : Nat}
    (hwf : db.WellFormed) (hmem : (u, g) ∈ db) :
    lookupGen
      (db.map (fun e => if e = (u, g) then (u, g + 1) else e)) u =
      some (g + 1) := by
  induction db with
  | nil => cases hmem
  | cons e rest ih =>
      rw [List.map_cons, lookupGen_cons]
      by_cases heq : e = (u, g)
      · rw [if_pos heq]; simp
      · rw [if_neg heq]
        rcases List.mem_cons.mp hmem with h | hrest
        · exact absurd h.symm heq
        · have hkey : e.1 ≠ u := by
            intro hk
            have : u ∈ rest.map Prod.fst :=
              List.mem_map.mpr ⟨(u, g), hrest, rfl⟩
            exact (List.nodup_cons.mp hwf).1 (hk ▸ this)
          rw [if_neg (by simp [hkey])]
          exact ih (List.nodup_cons.mp hwf).2 hrest

end ConsumerDB

namespace OwnState

lemma filter_key_filter_not {l : List (String × String)} {uuid c : String}
    (hc : c ≠ uuid) :
    (l.filter (fun e => !(e.2 == uuid))).filter (fun e => e.2 == c) =
      l.filter (fun e => e.2 == c) := by
  induction l with
  | nil => rfl
  | cons e rest ih =>
      by_cases he : e.2 = uuid
      · have h1 : (!(e.2 == uuid)) = false := by simp [he]
        have h2 : (e.2 == c) = false := by
          rw [he]; simp; exact Ne.symm hc
        simp [List.filter_cons, h1, h2, ih]
      · have h1 : (!(e.2 == uuid)) = true := by simp [he]
        by_cases hec : e.2 = c
        · have h2 : (e.2 == c) = true := by simp [hec]
          simp [List.filter_cons, h1, h2, ih]
        · have h2 : (e.2 == c) = false := by simp [hec]
          simp [List.filter_cons, h1, h2, ih]

lemma filter_not_key_nil (l : List (String × String)) (uuid : String) :
    (l.filter (fun e => !(e.2 == uuid))).filter (fun e => e.2 == uuid) =
      [] := by
  induction l with
  | nil => rfl
  | cons e rest ih =>
      by_cases he : e.2 = uuid
      · have h1 : (!(e.2 == uuid)) = false := by simp [he]
        simp [List.filter_cons, h1, ih]
      · have h1 : (!(e.2 == uuid)) = true := by simp [he]
        have h2 : (e.2 == uuid) = false := by simp [he]
        simp [List.filter_cons, h1, h2, ih]

lemma filter_map_const {α : Type} (l : List α) (x : String × String)
    (p : String × String → Bool) :
    (l.map (fun _ => x)).filter p =
      if p x then l.map (fun _ => x) else [] := by
  induction l with
  | nil => simp
  | cons a rest ih =>
      simp only [List.map_cons, List.filter_cons, ih]
      cases hp : p x <;> simp [hp]

end OwnState

/-- C1: for non-empty `A` and `B`, `A.merge_common_trees(B)` leaves the
candidate set equal to the union of the two candidate sets restricted to
triples whose `root_uuid` lies in `A.trees ∩ B.trees`, the intersection
being taken on the original lists (before the union). -/
theorem merge_common_trees_nonempty_spec (A B : RPCandidateList)
    (hA : A.toBool) (hB : B.toBool) :
    (A.merge_common_trees B).rp_candidates =
      (A.rp_candidates ∪ B.rp_candidates).filter
        (fun p => p.root_uuid ∈ A.trees ∩ B.trees) :=
  RPCandidateList.merge_common_trees_of_nonempty hA hB

/-- Witness for C1 at the concrete scenario lists. -/
theorem merge_common_trees_nonempty_spec_witness :
    A_scn.toBool ∧ B_scn.toBool ∧
      (A_scn.merge_common_trees B_scn).rp_candidates =
        (A_scn.rp_candidates ∪ B_scn.rp_candidates).filter
          (fun p => p.root_uuid ∈ A_scn.trees ∩ B_scn.trees) :=
  ⟨by decide, by decide,
    merge_common_trees_nonempty_spec A_scn B_scn (by decide) (by decide)⟩

/-- C3: merging with an empty `B` leaves `A`'s candidate set unchanged, and
merging from an empty `A` makes `A`'s candidate set equal to `B`'s. -/
theorem merge_common_trees_empty_cases (A B : RPCandidateList) :
    (¬ B.toBool →
        (A.merge_common_trees B).rp_candidates = A.rp_candidates) ∧
    (¬ A.toBool →
        (A.merge_common_trees B).rp_candidates = B.rp_candidates) := by
  constructor
  · intro hB
    by_cases hA : A.toBool
    · rw [RPCandidateList.merge_common_trees, if_neg (not_not_intro hA),
        if_pos hB]
    · rw [RPCandidateList.merge_common_trees, if_pos hA]
      rw [(A.not_toBool_iff).mp hA, (B.not_toBool_iff).mp hB]
  · intro hA
    rw [RPCandidateList.merge_common_trees, if_pos hA]

/-- Witness for C3 at concrete lists (empty `B`, empty `A`). -/
theorem merge_common_trees_empty_cases_witness :
    (¬ (⟨∅⟩ : RPCandidateList).toBool ∧
      (A_scn.merge_common_trees ⟨∅⟩).rp_candidates = A_scn.rp_candidates) ∧
    (¬ (⟨∅⟩ : RPCandidateList).toBool ∧
      ((⟨∅⟩ : RPCandidateList).merge_common_trees B_scn).rp_candidates =
        B_scn.rp_candidates) :=
  ⟨⟨by decide, (merge_common_trees_empty_cases A_scn ⟨∅⟩).1 (by decide)⟩,
   ⟨by decide, (merge_common_trees_empty_cases ⟨∅⟩ B_scn).2 (by decide)⟩⟩

/-- C5: for every list and every UUID set `S`, `filter_by_rp_or_tree S` and
`filter_by_rp_nor_tree S` partition the original candidate set: the two
results are disjoint, and their union is the original set. -/
theorem filter_or_nor_partition (l : RPCandidateList) (S : Finset String) :
    Disjoint (l.filter_by_rp_or_tree S).rp_candidates
        (l.filter_by_rp_nor_tree S).rp_candidates ∧
    (l.filter_by_rp_or_tree S).rp_candidates ∪
        (l.filter_by_rp_nor_tree S).rp_candidates = l.rp_candidates := by
  constructor
  · exact Finset.disjoint_filter_filter_neg l.rp_candidates l.rp_candidates _
  · exact Finset.filter_union_filter_neg_eq _ l.rp_candidates

/-- C7: for non-empty `A` and `B` whose tree sets are disjoint,
`A.merge_common_trees(B)` leaves an empty candidate set. -/
theorem merge_common_trees_disjoint_empty (A B : RPCandidateList)
    (hA : A.toBool) (hB : B.toBool) (hdisj : A.trees ∩ B.trees = ∅) :
    (A.merge_common_trees B).rp_candidates = ∅ := by
  rw [RPCandidateList.merge_common_trees_of_nonempty hA hB, hdisj]
  simp

/-- Witness for C7 at concrete disjoint-tree lists. -/
theorem merge_common_trees_disjoint_empty_witness :
    (⟨{⟨"a", "a", "DISK"⟩}⟩ : RPCandidateList).toBool ∧
    (⟨{⟨"b", "b", "DISK"⟩}⟩ : RPCandidateList).toBool ∧
    (⟨{⟨"a", "a", "DISK"⟩}⟩ : RPCandidateList).trees ∩
      (⟨{⟨"b", "b", "DISK"⟩}⟩ : RPCandidateList).trees = ∅ ∧
    ((⟨{⟨"a", "a", "DISK"⟩}⟩ : RPCandidateList).merge_common_trees
      ⟨{⟨"b", "b", "DISK"⟩}⟩).rp_candidates = ∅ :=
  ⟨by decide, by decide, by decide,
    merge_common_trees_disjoint_empty _ _ (by decide) (by decide) (by decide)⟩

/-- C9: after any sequence of mutations (`add_rps`, filters,
`merge_common_trees`), the derived views satisfy `rps ⊆ all_rps` and
`trees ⊆ all_rps`. -/
theorem rps_trees_subset_all_rps (init : RPCandidateList) (ops : List RPOp) :
    (RPOp.applySeq init ops).rps ⊆ (RPOp.applySeq init ops).all_rps ∧
    (RPOp.applySeq init ops).trees ⊆ (RPOp.applySeq init ops).all_rps :=
  ⟨Finset.subset_union_left, Finset.subset_union_right⟩

/-- C10: each of the four filters only removes triples — its result is a
subset of the candidate set before the call — and each is idempotent for a
fixed argument. -/
theorem filters_shrink_and_idempotent (l : RPCandidateList)
    (t : Finset String) (r : Finset (String × String)) (s u : Finset String) :
    ((l.filter_by_tree t).rp_candidates ⊆ l.rp_candidates ∧
      (l.filter_by_tree t).filter_by_tree t = l.filter_by_tree t) ∧
    ((l.filter_by_rp r).rp_candidates ⊆ l.rp_candidates ∧
      (l.filter_by_rp r).filter_by_rp r = l.filter_by_rp r) ∧
    ((l.filter_by_rp_or_tree s).rp_candidates ⊆ l.rp_candidates ∧
      (l.filter_by_rp_or_tree s).filter_by_rp_or_tree s =
        l.filter_by_rp_or_tree s) ∧
    ((l.filter_by_rp_nor_tree u).rp_candidates ⊆ l.rp_candidates ∧
      (l.filter_by_rp_nor_tree u).filter_by_rp_nor_tree u =
        l.filter_by_rp_nor_tree u) := by
  refine ⟨⟨Finset.filter_subset _ _, ?_⟩, ⟨Finset.filter_subset _ _, ?_⟩,
    ⟨Finset.filter_subset _ _, ?_⟩, ⟨Finset.filter_subset _ _, ?_⟩⟩ <;>
    simp [RPCandidateList.filter_by_tree, RPCandidateList.filter_by_rp,
      RPCandidateList.filter_by_rp_or_tree,
      RPCandidateList.filter_by_rp_nor_tree, Finset.filter_filter]

/-- C6 counterexample: in the scenario of spec §8 the union of the two
candidate sets has four elements, not five (the triple `(p1,p1,DISK)`
appears in both lists, and candidate sets have set semantics), so the
merged result is not a "five-element union". -/
theorem scenario_union_not_five_elements :
    (A_scn.rp_candidates ∪ B_scn.rp_candidates).card = 4 ∧
    (A_scn.rp_candidates ∪ B_scn.rp_candidates).card ≠ 5 ∧
    (A_scn.merge_common_trees B_scn).rp_candidates.card ≠ 5 := by
  refine ⟨by decide, by decide, by decide⟩

/-- C6 (amended): merging the scenario lists gives trees-in-both
`{p1, p3}`, and the resulting candidate set equals the four-element union
of the two lists filtered to triples whose root is `p1` or `p3` — all four
union triples are retained. -/
theorem scenario_merge_result :
    A_scn.trees ∩ B_scn.trees = ({"p1", "p3"} : Finset String) ∧
    (A_scn.merge_common_trees B_scn).rp_candidates =
      (A_scn.rp_candidates ∪ B_scn.rp_candidates).filter
        (fun p => p.root_uuid ∈ ({"p1", "p3"} : Finset String)) ∧
    (A_scn.merge_common_trees B_scn).rp_candidates =
      A_scn.rp_candidates ∪ B_scn.rp_candidates ∧
    (A_scn.merge_common_trees B_scn).rp_candidates.card = 4 := by
  refine ⟨by decide, by decide, by decide, by decide⟩

/-- C2: creating a consumer with unspecified generation stores and sets
generation 0; `increment_generation` succeeds exactly when the stored
generation still equals the caller's last-known generation, in which case
it advances the stored generation by one (0 to 1 on a first increment)
and returns the new value; when the compare fails it raises
`ConcurrentUpdateDetected`. -/
theorem consumer_generation_lifecycle
    (db : ConsumerDB) (c : Consumer) (uuid : String) (g : Nat)
    (hwf : db.WellFormed) :
    (c.generation = none → lookupGen db c.uuid = none →
      (Consumer.create db c).2.generation = some 0 ∧
        lookupGen (Consumer.create db c).1 c.uuid = some 0) ∧
    ((∃ r, Consumer.increment_generation db uuid g = .ok r) ↔
      lookupGen db uuid = some g) ∧
    (∀ db' n, Consumer.increment_generation db uuid g = .ok (db', n) →
      n = g + 1 ∧ lookupGen db' uuid = some (g + 1)) ∧
    (lookupGen db uuid ≠ some g →
      Consumer.increment_generation db uuid g =
        Except.error PlacementError.ConcurrentUpdateDetected) := by
  refine ⟨?_, ?_, ?_, ?_⟩
  · intro hgen hfresh
    have hnot : (c.uuid, (0 : Nat)) ∉ db := fun hm => by
      rw [ConsumerDB.lookupGen_eq_some_of_mem hwf hm] at hfresh
      cases hfresh
    constructor
    · simp [Consumer.create, hgen]
    · simp only [Consumer.create, hgen, Option.getD_none]
      rw [if_neg hnot]
      exact ConsumerDB.lookupGen_append_of_none hfresh 0
  · constructor
    · rintro ⟨r, hr⟩
      by_cases hm : (uuid, g) ∈ db
      · exact ConsumerDB.lookupGen_eq_some_of_mem hwf hm
      · simp only [Consumer.increment_generation, if_neg hm] at hr
        cases hr
    · intro h
      refine ⟨(db.map (fun e => if e = (uuid, g) then (uuid, g + 1) else e),
        g + 1), ?_⟩
      simp only [Consumer.increment_generation,
        if_pos (ConsumerDB.mem_of_lookupGen_eq_some h)]
  · intro db' n hok
    by_cases hm : (uuid, g) ∈ db
    · simp only [Consumer.increment_generation, if_pos hm] at hok
      have hpair := Except.ok.inj hok
      have hdb :
          db' = db.map (fun e => if e = (uuid, g) then (uuid, g + 1) else e) :=
        (congrArg Prod.fst hpair).symm
      have hn : n = g + 1 := (congrArg Prod.snd hpair).symm
      refine ⟨hn, ?_⟩
      rw [hdb]
      exact ConsumerDB.lookupGen_map_set hwf hm
    · simp only [Consumer.increment_generation, if_neg hm] at hok
      cases hok
  · intro hne
    by_cases hm : (uuid, g) ∈ db
    · exact absurd (ConsumerDB.lookupGen_eq_some_of_mem hwf hm) hne
    · simp only [Consumer.increment_generation, if_neg hm]

/-- Witness for C2 at a concrete one-consumer store. -/
theorem consumer_generation_lifecycle_witness :
    ConsumerDB.WellFormed [("c1", 0)] ∧
    (((Consumer.mk "c2" none).generation = none →
        lookupGen [("c1", 0)] (Consumer.mk "c2" none).uuid = none →
        (Consumer.create [("c1", 0)] (Consumer.mk "c2" none)).2.generation =
            some 0 ∧
          lookupGen (Consumer.create [("c1", 0)] (Consumer.mk "c2" none)).1
            (Consumer.mk "c2" none).uuid = some 0) ∧
      ((∃ r, Consumer.increment_generation [("c1", 0)] "c1" 0 = .ok r) ↔
        lookupGen [("c1", 0)] "c1" = some 0) ∧
      (∀ db' n,
        Consumer.increment_generation [("c1", 0)] "c1" 0 = .ok (db', n) →
          n = 0 + 1 ∧ lookupGen db' "c1" = some (0 + 1)) ∧
      (lookupGen [("c1", 0)] "c1" ≠ some 0 →
        Consumer.increment_generation [("c1", 0)] "c1" 0 =
          Except.error PlacementError.ConcurrentUpdateDetected)) :=
  ⟨by decide,
    consumer_generation_lifecycle [("c1", 0)] ⟨"c2", none⟩ "c1" 0 (by decide)⟩

/-- Swap branch of `Consumer.update` (a new user given): consumer
generations and the user set never change; only the `OWNS` edges into the
targeted consumer do, matching the consumer by both uuid and current
generation; when the pattern matches, the existing ownership edge is
swapped to the new user; when the uuid or the generation fails to match,
the state is unchanged.  `hone` is the data-model invariant that a
consumer has at most one owning user. -/
lemma consumer_update_some_user_spec (st : OwnState) (uuid : String)
    (gen : Nat) (uu : String) (st' : OwnState)
    (hok : Consumer.update st uuid gen (some uu) = .ok st')
    (hone : (st.ownersOf uuid).length ≤ 1) :
    st'.gens = st.gens ∧
    st'.users = st.users ∧
    (∀ c, c ≠ uuid → st'.ownersOf c = st.ownersOf c) ∧
    (st.ownersOf uuid ≠ [] → (uuid, gen) ∈ st.gens →
      st'.ownersOf uuid = [(uu, uuid)]) ∧
    (st.ownersOf uuid = [] ∨ (uuid, gen) ∉ st.gens → st' = st) := by
  by_cases hcond :
      st.owns.filter (fun e => e.2 == uuid) ≠ [] ∧ (uuid, gen) ∈ st.gens
  · obtain ⟨hne, hmem⟩ := hcond
    by_cases hu : uu ∈ st.users
    · have hst :
          st' =
            { st with owns :=
                (st.owns.filter (fun e => !(e.2 == uuid)) ++
                  (st.owns.filter (fun e => e.2 == uuid)).map
                    (fun _ => (uu, uuid))) } := by
        simp only [Consumer.update, if_pos (And.intro hne hmem),
          if_pos hu] at hok
        exact (Except.ok.inj hok).symm
      subst hst
      refine ⟨rfl, rfl, ?_, ?_, ?_⟩
      · intro c hc
        show ((st.owns.filter (fun e => !(e.2 == uuid)) ++
            (st.owns.filter (fun e => e.2 == uuid)).map
              (fun _ => (uu, uuid))).filter (fun e => e.2 == c)) =
          st.owns.filter (fun e => e.2 == c)
        rw [List.filter_append, OwnState.filter_key_filter_not hc,
          OwnState.filter_map_const]
        have h2 : ((uu, uuid).2 == c) = false := by
          simp
          exact Ne.symm hc
        simp [h2]
      · intro _ _
        show ((st.owns.filter (fun e => !(e.2 == uuid)) ++
            (st.owns.filter (fun e => e.2 == uuid)).map
              (fun _ => (uu, uuid))).filter (fun e => e.2 == uuid)) =
          [(uu, uuid)]
        rw [List.filter_append, OwnState.filter_not_key_nil,
          OwnState.filter_map_const]
        have hlen1 : (st.ownersOf uuid).length = 1 :=
          Nat.le_antisymm hone
            (Nat.one_le_iff_ne_zero.mpr
              (fun h0 => hne (List.length_eq_zero.mp h0)))
        obtain ⟨e, he⟩ := List.length_eq_one.mp hlen1
        have he' : st.owns.filter (fun e => e.2 == uuid) = [e] := he
        rw [he']
        simp
      · rintro (h | h)
        · exact absurd h hne
        · exact absurd hmem h
    · simp only [Consumer.update, if_pos (And.intro hne hmem),
        if_neg hu] at hok
      cases hok
  · have hst : st' = st := by
      simp only [Consumer.update, if_neg hcond] at hok
      exact (Except.ok.inj hok).symm
    subst hst
    refine ⟨rfl, rfl, fun c _ => rfl, ?_, fun _ => rfl⟩
    intro hne hmem
    exact absurd ⟨hne, hmem⟩ hcond

/-- C8: calling `Consumer.update` with no user specified never drops the
ownership edge — the no-user query template holds two `%s` placeholders
but is formatted with three arguments, so Python raises `TypeError` before
any query runs — although the claim (and spec §4.1) says this call drops
the existing user→consumer edge.  At the failing input the consumer keeps
its owner, and the failure is universal: every no-user call raises. -/
theorem consumer_update_none_type_error :
    Consumer.update ⟨{"u2"}, [("c1", 5)], [("u1", "c1")]⟩ "c1" 5 none =
        Except.error PlacementError.typeError ∧
    (OwnState.mk {"u2"} [("c1", 5)] [("u1", "c1")]).ownersOf "c1" =
        [("u1", "c1")] ∧
    (∀ st uuid gen, Consumer.update st uuid gen none =
        Except.error PlacementError.typeError) :=
  ⟨rfl, by decide, fun _ _ _ => rfl⟩

/-- C4: `delete_consumers_if_no_allocations` deletes nothing — its body
executes a bare `return` before the deletion query — so a consumer with
zero `USES` relationships survives the call even though the function's
docstring (and the spec) says such a consumer is deleted; the dead query
sitting after the `return` would have removed it. -/
theorem delete_consumers_noop_on_unallocated :
    delete_consumers_if_no_allocations ⟨{"c1"}, []⟩ ["c1"] =
        AllocState.mk {"c1"} [] ∧
    "c1" ∈ (delete_consumers_if_no_allocations ⟨{"c1"}, []⟩ ["c1"]).consumers ∧
    (AllocState.mk {"c1"} []).uses.filter (fun e => e.1 == "c1") = [] ∧
    "c1" ∉ (dead_delete_query ⟨{"c1"}, []⟩).consumers :=
  ⟨rfl, by decide, rfl, by decide⟩
